import Mathlib

set_option autoImplicit false
set_option maxRecDepth 20000

/-!
Shallow embedding of the arxiv_rss_bot publishing pipeline
(src/main.py and src/notion_publisher.py).

Python strings are modelled as Lean `String` values manipulated through
their character lists, at ASCII fidelity.  Python dicts holding the Notion
database schema are modelled as association lists from property name to
property type.  Remote HTTP calls are modelled by explicit status
functions (the status code the remote returns for a given request);
the loops of `publish_from_latest_rss` and `backfill_from_latest_rss`
are folds over the parsed paper list that additionally record the
observable request traffic (which papers were sent to create_page, which
identities were confirmed with status 200), so that the external
behaviour of a call can be stated.
-/

namespace ArxivBot

/-! Python `str` primitives used by the source. -/

/-- ASCII whitespace recognised by Python `str.strip`. -/
def pyIsSpace (c : Char) : Bool :=
  c == ' ' || c == '\t' || c == '\n' || c == '\r' || c == '\x0b' || c == '\x0c'

/-- Python `str.lower` on a character list (ASCII). -/
def lowerChars (s : List Char) : List Char :=
  s.map Char.toLower

/-- Python `str.startswith`: does the second list begin with the first. -/
def listStartsWith : List Char → List Char → Bool
  | [], _ => true
  | _ :: _, [] => false
  | p :: ps, c :: cs => p == c && listStartsWith ps cs

/-- Python substring containment (the `in` operator on strings). -/
def listHasSub (needle : List Char) : List Char → Bool
  | [] => needle.isEmpty
  | c :: cs => listStartsWith needle (c :: cs) || listHasSub needle cs

/-- Python `str.strip` (both ends, ASCII whitespace). -/
def pyStrip (s : String) : String :=
  ⟨((s.data.dropWhile pyIsSpace).reverse.dropWhile pyIsSpace).reverse⟩

/-- Python `str.split` on a single-character separator (no maxsplit). -/
def splitOnChar (sep : Char) : List Char → List (List Char)
  | [] => [[]]
  | c :: cs =>
    let r := splitOnChar sep cs
    if c == sep then [] :: r
    else
      match r with
      | [] => [[c]]
      | h :: t => (c :: h) :: t

/-- Python `description.split("\n")`. -/
def pySplitLines (s : String) : List String :=
  (splitOnChar '\n' s.data).map fun l => ⟨l⟩

/-- Python `str.lower` on a string. -/
def pyLower (s : String) : String :=
  ⟨lowerChars s.data⟩

/-- Python `s.startswith(pat)`. -/
def pyStartsWith (s pat : String) : Bool :=
  listStartsWith pat.data s.data

/-- Python `s.split(sep, 1)[1]`: everything after the first separator
(the source only evaluates this when the separator is present). -/
def afterFirstSep (sep : Char) : List Char → List Char
  | [] => []
  | c :: cs => if c == sep then cs else afterFirstSep sep cs

/-- Python `[n.strip() for n in s.split(",") if n.strip()]`. -/
def pyCommaSplitTrim (s : String) : List String :=
  ((splitOnChar ',' s.data).map fun l => pyStrip ⟨l⟩).filter fun t => t != ""

/-- Python `" ".join(ls)`. -/
def pySpaceJoin (ls : List String) : String :=
  String.intercalate " " ls

/-! The description parser (src/notion_publisher.py, extract_authors_and_abstract
and extract_categories_from_description). -/

/-- Loop body of extract_authors_and_abstract: walks the stripped non-empty
lines carrying the found flag, the author list and the abstract lines. -/
def eaaLoop : List String → Bool → List String → List String → List String × List String
  | [], _, authors, abs => (authors, abs)
  | l :: ls, found, authors, abs =>
    if pyStartsWith (pyLower l) "authors:" then
      eaaLoop ls true (pyCommaSplitTrim (pyStrip ⟨afterFirstSep ':' l.data⟩)) abs
    else if found then
      eaaLoop ls found authors (abs ++ [l])
    else
      eaaLoop ls found authors abs

/-- Embeds extract_authors_and_abstract (src/notion_publisher.py lines 190-209). -/
def extract_authors_and_abstract (description : String) : List String × String :=
  if description == "" then ([], "")
  else
    let lines := ((pySplitLines description).map pyStrip).filter fun l => l != ""
    let p := eaaLoop lines false [] []
    let abstractText := if p.2.isEmpty then pySpaceJoin lines else pySpaceJoin p.2
    (p.1, abstractText)

/-- Loop body of extract_categories_from_description: returns on the first
line whose stripped lowercase form starts with the label. -/
def ecdLoop : List String → List String
  | [] => []
  | line :: rest =>
    let l := pyStrip line
    if pyStartsWith (pyLower l) "categories:" then
      pyCommaSplitTrim (pyStrip ⟨afterFirstSep ':' l.data⟩)
    else ecdLoop rest

/-- Embeds extract_categories_from_description (src/notion_publisher.py lines 273-281). -/
def extract_categories_from_description (description : String) : List String :=
  if description == "" then [] else ecdLoop (pySplitLines description)

/-! The keyword matcher (src/notion_publisher.py, match_keywords). -/

/-- Embeds match_keywords (src/notion_publisher.py lines 211-213):
lowercases the f-string "title description" and keeps the configured
keywords whose lowercase form occurs in it. -/
def match_keywords (title description : String) (keywords : List String) : List String :=
  let text := lowerChars (title ++ " " ++ description).data
  keywords.filter fun kw => listHasSub (lowerChars kw.data) text

/-- Modelled from the spec's words (testable property for the matcher): the
ordered sublist of the configured keyword list K whose lowercase form is a
substring of the lowercase form of the record text T.  Used only to compare
the source function against the specified behaviour. -/
def matchSpecKeywords (keywords : List String) (text : String) : List String :=
  keywords.filter fun kw => listHasSub (lowerChars kw.data) (lowerChars text.data)

/-! The schema reconciler (src/notion_publisher.py, ensure_database_properties,
guess_notion_type and ensure_properties_from_xml).  A Notion property map is
an association list from property name to the type tag Notion reports. -/

abbrev PropMap := List (String × String)

/-- Lookup in a property map (Python dict access). -/
def assocLookup : PropMap → String → Option String
  | [], _ => none
  | (n, t) :: rest, k => if n = k then some t else assocLookup rest k

/-- The check `name in properties_map and properties_map[name].get("type") == ty`. -/
def propTypeIs (pm : PropMap) (name ty : String) : Bool :=
  match assocLookup pm name with
  | some t => t == ty
  | none => false

/-- The six well-known properties ensure_database_properties requires,
in source order with their required Notion types. -/
def requiredProps : List (String × String) :=
  [("URL", "url"), ("Authors", "multi_select"), ("Date", "date"),
   ("Keywords", "multi_select"), ("Abstract", "rich_text"), ("ArXiv ID", "rich_text")]

/-- The `need` dict built by ensure_database_properties: the required
properties absent or type-mismatched in the current map. -/
def needOf (pm : PropMap) : List (String × String) :=
  requiredProps.filter fun q => !(propTypeIs pm q.1 q.2)

/-- Embeds ensure_database_properties (src/notion_publisher.py lines 44-70).
patchStatus is the HTTP status the remote returns for the PATCH request;
refreshed is the map a follow-up GET returns after a successful patch.
The second component counts the schema-mutation (PATCH) requests issued. -/
def ensure_database_properties (patchStatus : Nat) (refreshed : PropMap) (pm : PropMap) :
    PropMap × Nat :=
  let need := needOf pm
  if need.isEmpty then (pm, 0)
  else if patchStatus = 200 then (refreshed, 1)
  else (pm, 1)

/-- Embeds guess_notion_type (src/notion_publisher.py lines 238-248). -/
def guess_notion_type (fieldName : String) : String :=
  let name := pyLower fieldName
  if name = "link" then "url"
  else if name = "pubdate" || name = "updated" then "date"
  else if name = "category" || name = "keywords" || name = "tags" then "multi_select"
  else if name = "title" then "title"
  else "rich_text"

/-- The `need` dict built by ensure_properties_from_xml from the first RSS
item's field names: non-title fields whose guessed type is absent or
mismatched in the current map. -/
def xmlNeedOf (pm : PropMap) (fields : List String) : List String :=
  fields.filter fun f =>
    guess_notion_type f != "title" && !(propTypeIs pm f (guess_notion_type f))

/-- Embeds ensure_properties_from_xml (src/notion_publisher.py lines 250-271),
with the field list of the first RSS item supplied by the (external) XML
parse.  Outputs as in ensure_database_properties. -/
def ensure_properties_from_xml (fields : List String) (patchStatus : Nat)
    (refreshed : PropMap) (pm : PropMap) : PropMap × Nat :=
  let need := xmlNeedOf pm fields
  if need.isEmpty then (pm, 0)
  else if patchStatus = 200 then (refreshed, 1)
  else (pm, 1)

/-- Overwrite-or-append update of a property map (one property added by a
successful PATCH). -/
def assocSet : PropMap → String → String → PropMap
  | [], n, t => [(n, t)]
  | (k, v) :: rest, n, t => if k = n then (n, t) :: rest else (k, v) :: assocSet rest n t

/-- The remote schema after a successful PATCH adding the listed properties,
assuming no intervening remote change. -/
def applyNeed (pm : PropMap) (need : List (String × String)) : PropMap :=
  need.foldl (fun m q => assocSet m q.1 q.2) pm

/-! Papers, identities and the publish ledger. -/

/-- A parsed RSS item as the publisher sees it: the fields that drive the
ledger logic.  Absent dict keys are `none`. -/
structure Paper where
  guid : Option String
  link : Option String
  title : Option String
deriving DecidableEq, Repr

/-- Python truthiness of an optional string (`None` and `""` are falsy). -/
def truthy : Option String → Bool
  | none => false
  | some s => s != ""

/-- Python `a or b` on optional strings. -/
def pyOr (a b : Option String) : Option String :=
  if truthy a then a else b

/-- The identity used for deduplication: `paper.get("guid") or paper.get("link")`. -/
def paperGuid (p : Paper) : Option String :=
  pyOr p.guid p.link

/-- The publish ledger: the persisted set of delivered identities.  A JSON
null entry is `none`. -/
abbrev Ledger := List (Option String)

/-- Python `set.add`. -/
def insertGuid (l : Ledger) (g : Option String) : Ledger :=
  if g ∈ l then l else l ++ [g]

/-! The publish loop (src/notion_publisher.py lines 357-432). -/

/-- State of the publish loop.  `calls` records the papers for which a
create_page request was issued, `okGuids` the identities of papers whose
create_page returned status 200, in order. -/
structure PubState where
  created : Nat
  guids : Ledger
  errors : List (String × Nat)
  calls : List Paper
  okGuids : Ledger
deriving DecidableEq

/-- Python `paper.get("title", "Untitled")`. -/
def pubTitle (p : Paper) : String :=
  p.title.getD "Untitled"

/-- One iteration of the publish loop: the batch-limit break, the ledger
skip, the create_page call, and the success/error bookkeeping. -/
def publishStep (limit : Nat) (createStatus : Paper → Nat) (st : PubState) (p : Paper) :
    PubState :=
  if limit ≤ st.created then st
  else if paperGuid p ∈ st.guids then st
  else if createStatus p = 200 then
    { st with created := st.created + 1,
              guids := insertGuid st.guids (paperGuid p),
              calls := st.calls ++ [p],
              okGuids := st.okGuids ++ [paperGuid p] }
  else
    { st with errors := st.errors ++ [(pubTitle p, createStatus p)],
              calls := st.calls ++ [p] }

/-- The publish loop over the parsed papers, started from the loaded ledger. -/
def publishRun (limit : Nat) (createStatus : Paper → Nat) (papers : List Paper)
    (ledger0 : Ledger) : PubState :=
  papers.foldl (publishStep limit createStatus) ⟨0, ledger0, [], [], []⟩

/-- The dict publish_from_latest_rss returns for a processed batch. -/
structure PubResult where
  success : Bool
  created : Nat
  errors : List (String × Nat)
deriving DecidableEq, Repr

/-- Embeds the batch portion of publish_from_latest_rss: run the loop and
build the result dict (line 432). -/
def publish_from_latest_rss (limit : Nat) (createStatus : Paper → Nat)
    (papers : List Paper) (ledger0 : Ledger) : PubResult :=
  let st := publishRun limit createStatus papers ledger0
  ⟨decide (0 < st.created), st.created, st.errors⟩

/-! Persisting the ledger (src/notion_publisher.py lines 23-29 and 430-431). -/

/-- The on-disk publish-history file. -/
structure Disk where
  content : String
deriving DecidableEq, Repr

/-- JSON rendering of one ledger entry (a guid or null). -/
def jsonOfGuid : Option String → String
  | none => "null"
  | some s => "\"" ++ s ++ "\""

/-- JSON rendering of the history dict json.dump writes. -/
def serializeHistory (guids : Ledger) : String :=
  "\x7b\"published_guids\": [" ++ String.intercalate ", " (guids.map jsonOfGuid) ++ "]\x7d"

/-- First k characters of a string. -/
def strTake (s : String) (k : Nat) : String :=
  ⟨s.data.take k⟩

/-- Embeds save_publish_history (src/notion_publisher.py lines 23-29): the
file is opened in truncating write mode and the JSON text written.
`failAt = some k` models an exception striking after k characters were
written; the function then returns false instead of raising, leaving the
truncated prefix on disk. -/
def save_publish_history (serialized : String) (failAt : Option Nat) (d : Disk) :
    Disk × Bool :=
  match failAt, d with
  | none, _ => (⟨serialized⟩, true)
  | some k, _ => (⟨strTake serialized k⟩, false)

/-- The tail of publish_from_latest_rss (lines 430-432): persist the mutated
ledger, discarding save_publish_history's return value, and build the
result dict. -/
def publishAndPersist (limit : Nat) (createStatus : Paper → Nat) (papers : List Paper)
    (ledger0 : Ledger) (d : Disk) (failAt : Option Nat) : PubResult × Disk :=
  let st := publishRun limit createStatus papers ledger0
  let saved := save_publish_history (serializeHistory st.guids) failAt d
  (⟨decide (0 < st.created), st.created, st.errors⟩, saved.1)

/-! The backfill loop (src/notion_publisher.py lines 434-480). -/

/-- State of the backfill loop.  `okCreateGuids` records the identities of
papers whose create_page returned status 200, in order. -/
structure BfState where
  updated : Nat
  created : Nat
  guids : Ledger
  errors : List (String × Nat)
  okCreateGuids : Ledger
deriving DecidableEq

/-- Python `paper.get("title", "")`. -/
def bfTitle (p : Paper) : String :=
  p.title.getD ""

/-- One iteration of the backfill loop: update the page matched by exact
title, otherwise create it and mark the truthy identity in the ledger. -/
def backfillStep (pageTitles : List String) (updateStatus createStatus : Paper → Nat)
    (st : BfState) (p : Paper) : BfState :=
  if bfTitle p ∈ pageTitles then
    if updateStatus p = 200 then
      { st with updated := st.updated + 1 }
    else
      { st with errors := st.errors ++ [(bfTitle p, updateStatus p)] }
  else if createStatus p = 200 then
    { st with created := st.created + 1,
              okCreateGuids := st.okCreateGuids ++ [paperGuid p],
              guids := if truthy (paperGuid p) then insertGuid st.guids (paperGuid p)
                       else st.guids }
  else
    { st with errors := st.errors ++ [(bfTitle p, createStatus p)] }

/-- The backfill loop over the parsed papers, against the titles of the
pages the full database listing returned. -/
def backfillRun (pageTitles : List String) (updateStatus createStatus : Paper → Nat)
    (papers : List Paper) (ledger0 : Ledger) : BfState :=
  papers.foldl (backfillStep pageTitles updateStatus createStatus) ⟨0, 0, ledger0, [], []⟩

/-- The dict backfill_from_latest_rss returns for a processed batch. -/
structure BfResult where
  success : Bool
  updated : Nat
  created : Nat
  errors : List (String × Nat)
deriving DecidableEq, Repr

/-- Embeds the batch portion of backfill_from_latest_rss: run the loop and
build the result dict (line 480). -/
def backfill_from_latest_rss (pageTitles : List String)
    (updateStatus createStatus : Paper → Nat) (papers : List Paper)
    (ledger0 : Ledger) : BfResult :=
  let st := backfillRun pageTitles updateStatus createStatus papers ledger0
  ⟨decide (0 < st.updated + st.created), st.updated, st.created, st.errors⟩

/-! The retrying fetch wrapper (src/main.py lines 235-249). -/

/-- Outcome of one call to the fetch collaborator: a paper list, or an
exception. -/
inductive FetchRes where
  | ok : List Paper → FetchRes
  | exc : FetchRes
deriving DecidableEq

/-- Observable outcome of the retry loop: normal exit with the papers, the
final re-raise, or fuel exhausted while the loop was still running.  The
two counters record fetch calls made and 60-second back-off sleeps taken. -/
inductive LoopOut where
  | finished : List Paper → Nat → Nat → LoopOut
  | raised : Nat → Nat → LoopOut
  | fuelOut : Nat → Nat → LoopOut
deriving DecidableEq

/-- Embeds the retry loop of run_pipeline (src/main.py lines 235-249).
fetch gives the collaborator's behaviour on the n-th call; the loop state
is the retry count; idx, calls and sleeps instrument the traffic.  The
first argument is fuel: the source loop has no bound of its own on
iterations that raise no exception. -/
def fetchLoop (fetch : Nat → FetchRes) (maxRetries : Nat) :
    Nat → Nat → Nat → Nat → Nat → LoopOut
  | 0, _, _, calls, sleeps => .fuelOut calls sleeps
  | fuel + 1, retry, idx, calls, sleeps =>
    if retry < maxRetries then
      match fetch idx with
      | .ok ps =>
        if ps.isEmpty then fetchLoop fetch maxRetries fuel retry (idx + 1) (calls + 1) sleeps
        else .finished ps (calls + 1) sleeps
      | .exc =>
        if maxRetries ≤ retry + 1 then .raised (calls + 1) sleeps
        else fetchLoop fetch maxRetries fuel (retry + 1) (idx + 1) (calls + 1) (sleeps + 1)
    else .finished [] calls sleeps

/-! General lemmas about the embedded operations. -/

/-- Membership in the ledger after a set add. -/
lemma mem_insertGuid (l : Ledger) (g x : Option String) :
    x ∈ insertGuid l g ↔ x ∈ l ∨ x = g := by
  unfold insertGuid
  by_cases h : g ∈ l
  · simp only [if_pos h]
    constructor
    · exact Or.inl
    · rintro (hx | rfl)
      · exact hx
      · exact h
  · simp only [if_neg h, List.mem_append, List.mem_singleton]

/-- The ledger invariant the publish loop maintains: the in-memory guid set
is the loaded ledger together with the identities confirmed so far. -/
def pubInv (ledger0 : Ledger) (st : PubState) : Prop :=
  ∀ x, x ∈ st.guids ↔ x ∈ ledger0 ∨ x ∈ st.okGuids

lemma publishStep_inv (limit : Nat) (cs : Paper → Nat) (ledger0 : Ledger)
    (st : PubState) (p : Paper) (h : pubInv ledger0 st) :
    pubInv ledger0 (publishStep limit cs st p) := by
  unfold publishStep
  by_cases h1 : limit ≤ st.created
  · rw [if_pos h1]; exact h
  · rw [if_neg h1]
    by_cases h2 : paperGuid p ∈ st.guids
    · rw [if_pos h2]; exact h
    · rw [if_neg h2]
      by_cases h3 : cs p = 200
      · rw [if_pos h3]
        intro x
        dsimp only
        rw [mem_insertGuid, h x, List.mem_append, List.mem_singleton]
        tauto
      · rw [if_neg h3]
        intro x
        exact h x

lemma foldl_pub_inv (limit : Nat) (cs : Paper → Nat) (ledger0 : Ledger) :
    ∀ (papers : List Paper) (st : PubState), pubInv ledger0 st →
      pubInv ledger0 (papers.foldl (publishStep limit cs) st)
  | [], _, h => h
  | p :: ps, st, h =>
    foldl_pub_inv limit cs ledger0 ps (publishStep limit cs st p)
      (publishStep_inv limit cs ledger0 st p h)

lemma publishRun_inv (limit : Nat) (cs : Paper → Nat) (papers : List Paper)
    (ledger0 : Ledger) : pubInv ledger0 (publishRun limit cs papers ledger0) := by
  apply foldl_pub_inv
  intro x
  simp

/-- The ledger invariant the backfill loop maintains: only truthy identities
of confirmed creates are added. -/
def bfInv (ledger0 : Ledger) (st : BfState) : Prop :=
  ∀ x, x ∈ st.guids ↔ x ∈ ledger0 ∨ (x ∈ st.okCreateGuids ∧ truthy x = true)

lemma backfillStep_inv (pageTitles : List String) (us cs : Paper → Nat)
    (ledger0 : Ledger) (st : BfState) (p : Paper) (h : bfInv ledger0 st) :
    bfInv ledger0 (backfillStep pageTitles us cs st p) := by
  unfold backfillStep
  by_cases h1 : bfTitle p ∈ pageTitles
  · rw [if_pos h1]
    by_cases h2 : us p = 200
    · rw [if_pos h2]; exact h
    · rw [if_neg h2]; exact h
  · rw [if_neg h1]
    by_cases h3 : cs p = 200
    · rw [if_pos h3]
      intro x
      dsimp only
      by_cases ht : truthy (paperGuid p) = true
      · rw [if_pos ht, mem_insertGuid, h x, List.mem_append, List.mem_singleton]
        constructor
        · rintro ((h0 | hok) | rfl)
          · exact Or.inl h0
          · exact Or.inr ⟨Or.inl hok.1, hok.2⟩
          · exact Or.inr ⟨Or.inr rfl, ht⟩
        · rintro (h0 | ⟨hok | rfl, htr⟩)
          · exact Or.inl (Or.inl h0)
          · exact Or.inl (Or.inr ⟨hok, htr⟩)
          · exact Or.inr rfl
      · rw [if_neg ht, h x, List.mem_append, List.mem_singleton]
        constructor
        · rintro (h0 | hok)
          · exact Or.inl h0
          · exact Or.inr ⟨Or.inl hok.1, hok.2⟩
        · rintro (h0 | ⟨hok | rfl, htr⟩)
          · exact Or.inl h0
          · exact Or.inr ⟨hok, htr⟩
          · exact absurd htr ht
    · rw [if_neg h3]
      intro x
      exact h x

lemma foldl_bf_inv (pageTitles : List String) (us cs : Paper → Nat) (ledger0 : Ledger) :
    ∀ (papers : List Paper) (st : BfState), bfInv ledger0 st →
      bfInv ledger0 (papers.foldl (backfillStep pageTitles us cs) st)
  | [], _, h => h
  | p :: ps, st, h =>
    foldl_bf_inv pageTitles us cs ledger0 ps (backfillStep pageTitles us cs st p)
      (backfillStep_inv pageTitles us cs ledger0 st p h)

lemma backfillRun_inv (pageTitles : List String) (us cs : Paper → Nat)
    (papers : List Paper) (ledger0 : Ledger) :
    bfInv ledger0 (backfillRun pageTitles us cs papers ledger0) := by
  apply foldl_bf_inv
  intro x
  simp

/-! Theorems for the claims. -/

def c8desc : String := "Authors: A. Smith, B. Lee\nCategories: cs.AI, cs.LG\nWe show..."

/-- C8 (counterexample): on the spec's sample description the abstract the
code computes is not the claimed string, because the line carrying the
Categories label is kept in the abstract. -/
theorem C8_counterexample :
    ((extract_authors_and_abstract c8desc).2 == "We show...") = false := by
  decide

/-- C8 (amended): parsing the sample description yields the claimed author
list and category list, but the abstract space-joins every line after the
Authors line, including the Categories line. -/
theorem C8_amended_parse :
    extract_authors_and_abstract c8desc =
      (["A. Smith", "B. Lee"], "Categories: cs.AI, cs.LG We show...")
    ∧ extract_categories_from_description c8desc = ["cs.AI", "cs.LG"] := by
  constructor
  · decide
  · decide

/-- C6: the keyword matcher returns exactly the sublist of the configured
keyword list, in its original order and casing, consisting of the keywords
whose lowercase form is a substring of the lowercase combined title and
description text. -/
theorem C6_match_keywords_filter (title description : String) (K : List String) :
    match_keywords title description K = matchSpecKeywords K (title ++ " " ++ description)
    ∧ (match_keywords title description K).Sublist K
    ∧ ∀ kw, kw ∈ match_keywords title description K ↔
        kw ∈ K ∧ listHasSub (lowerChars kw.data)
          (lowerChars (title ++ " " ++ description).data) = true := by
  refine ⟨rfl, List.filter_sublist K, ?_⟩
  intro kw
  simp [match_keywords, List.mem_filter]

def c3p1 : Paper := ⟨some "X", none, some "one"⟩
def c3p2 : Paper := ⟨some "X", none, some "two"⟩

/-- C3 (counterexample): with an empty ledger and a sink accepting every
create, a publish call over two records sharing identity X creates only
one page, not two: the first success marks X in the in-memory set and the
second record is skipped. -/
theorem C3_counterexample :
    ((publishRun 30 (fun _ => 200) [c3p1, c3p2] []).created == 2) = false := by
  decide

/-- C3 (amended): the first publish call over the two records delivers
exactly one (the second is deduplicated against the in-memory identity set
within the same call), and a second publish call with the resulting ledger
delivers zero. -/
theorem C3_amended_duplicate_identity :
    (publish_from_latest_rss 30 (fun _ => 200) [c3p1, c3p2] []).created = 1
    ∧ (publish_from_latest_rss 30 (fun _ => 200) [c3p1, c3p2]
        (publishRun 30 (fun _ => 200) [c3p1, c3p2] []).guids).created = 0 := by
  constructor
  · decide
  · decide

def c9paper : Paper := ⟨none, none, some "t"⟩

/-- C9 (counterexample): a record with neither guid nor link is not excluded
from ledger-tracked delivery by publish: after its create succeeds, a null
identity entry is in the ledger the call persists. -/
theorem C9_counterexample :
    ((publishRun 30 (fun _ => 200) [c9paper] []).guids.contains none) = true := by
  decide

/-- C9 (amended): backfill never persists an identity-less entry (everything
it adds to the loaded ledger is truthy), but publish adds the identity value
of every confirmed create even when it is null: a successfully created
record without guid and link leaves a null entry in the persisted ledger. -/
theorem C9_amended_identity_ledger (pageTitles : List String) (us cs : Paper → Nat)
    (papers : List Paper) (ledger0 : Ledger) (x : Option String)
    (h : x ∈ (backfillRun pageTitles us cs papers ledger0).guids) :
    (x ∈ ledger0 ∨ truthy x = true)
    ∧ (publishRun 30 (fun _ => 200) [c9paper] []).guids = [none] := by
  constructor
  · rcases (backfillRun_inv pageTitles us cs papers ledger0 x).1 h with h0 | ⟨_, ht⟩
    · exact Or.inl h0
    · exact Or.inr ht
  · decide

/-- C9 (witness): the amended theorem applied at a concrete backfill run. -/
theorem C9_witness :
    ((some "a" : Option String) ∈
        (backfillRun [] (fun _ => 200) (fun _ => 200) [] [some "a"]).guids)
    ∧ (((some "a" : Option String) ∈ ([some "a"] : Ledger) ∨ truthy (some "a") = true)
      ∧ (publishRun 30 (fun _ => 200) [c9paper] []).guids = [none]) :=
  ⟨by decide,
   C9_amended_identity_ledger [] (fun _ => 200) (fun _ => 200) [] [some "a"]
     (some "a") (by decide)⟩

def c5paper : Paper := ⟨some "A", none, some "t"⟩

/-- C5 (counterexample): the ledger persist is not atomic.  With the prior
history file on disk, a failure at the very start of the dump (after the
file was already opened in truncating write mode) leaves the file empty:
the prior on-disk ledger does not remain intact. -/
theorem C5_counterexample :
    ((publishAndPersist 30 (fun _ => 200) [c5paper] []
        ⟨"\x7b\"published_guids\": []\x7d"⟩ (some 0)).2.content
      == "\x7b\"published_guids\": []\x7d") = false := by
  decide

/-- C5 (amended): when the persist fails, no exception escapes the publish
step and the step's result dict is exactly the one a successful persist
yields, so the failure is not reported in the result; and the file is left
holding a prefix of the new serialization (the prior content was truncated
away by opening the file in write mode), not the prior ledger. -/
theorem C5_amended_persist (limit : Nat) (cs : Paper → Nat) (papers : List Paper)
    (ledger0 : Ledger) (d : Disk) (k : Nat) :
    (publishAndPersist limit cs papers ledger0 d (some k)).1 =
      (publishAndPersist limit cs papers ledger0 d none).1
    ∧ (publishAndPersist limit cs papers ledger0 d (some k)).2 =
      ⟨strTake (serializeHistory (publishRun limit cs papers ledger0).guids) k⟩ := by
  constructor
  · rfl
  · rfl

def c1paper : Paper := ⟨some "G", none, some "Foo"⟩

/-- C1 (counterexample): in a backfill call where the sole record matches an
existing page titled Foo and the update returns status 200, the record is
confirmed updated yet its identity G is not in the persisted ledger, which
stays equal to the ledger loaded before the call. -/
theorem C1_counterexample :
    ((backfillRun ["Foo"] (fun _ => 200) (fun _ => 200) [c1paper] []).updated == 1) = true
    ∧ ((backfillRun ["Foo"] (fun _ => 200) (fun _ => 200) [c1paper] []).guids.contains
        (some "G")) = false := by
  constructor
  · decide
  · decide

/-- C1 (amended): the ledger a publish call persists is the loaded ledger
united with the identities of exactly the records whose create returned
status 200 in the call; the ledger a backfill call persists is the loaded
ledger united with the truthy identities of exactly the records whose
create returned status 200 — identities of records confirmed by update are
not added in backfill. -/
theorem C1_amended_ledger_update (limit : Nat) (cs us : Paper → Nat)
    (papers : List Paper) (pageTitles : List String) (ledger0 : Ledger)
    (x : Option String) :
    (x ∈ (publishRun limit cs papers ledger0).guids ↔
      x ∈ ledger0 ∨ x ∈ (publishRun limit cs papers ledger0).okGuids)
    ∧ (x ∈ (backfillRun pageTitles us cs papers ledger0).guids ↔
      x ∈ ledger0 ∨ (x ∈ (backfillRun pageTitles us cs papers ledger0).okCreateGuids
        ∧ truthy x = true)) :=
  ⟨publishRun_inv limit cs papers ledger0 x,
   backfillRun_inv pageTitles us cs papers ledger0 x⟩

/-- The invariant behind the dedup guarantee: an identity present in the
in-memory guid set stays there, and no create_page request is ever issued
for a paper carrying it. -/
def pubSkipInv (i : Option String) (st : PubState) : Prop :=
  i ∈ st.guids ∧ ∀ q ∈ st.calls, paperGuid q ≠ i

lemma publishStep_skip_inv (limit : Nat) (cs : Paper → Nat) (i : Option String)
    (st : PubState) (p : Paper) (h : pubSkipInv i st) :
    pubSkipInv i (publishStep limit cs st p) := by
  obtain ⟨hg, hc⟩ := h
  unfold publishStep
  by_cases h1 : limit ≤ st.created
  · rw [if_pos h1]; exact ⟨hg, hc⟩
  · rw [if_neg h1]
    by_cases h2 : paperGuid p ∈ st.guids
    · rw [if_pos h2]; exact ⟨hg, hc⟩
    · rw [if_neg h2]
      have hpi : paperGuid p ≠ i := fun he => h2 (he ▸ hg)
      by_cases h3 : cs p = 200
      · rw [if_pos h3]
        refine ⟨(mem_insertGuid _ _ _).2 (Or.inl hg), ?_⟩
        intro q hq
        rcases List.mem_append.1 hq with hq | hq
        · exact hc q hq
        · rw [List.mem_singleton] at hq
          subst hq
          exact hpi
      · rw [if_neg h3]
        refine ⟨hg, ?_⟩
        intro q hq
        rcases List.mem_append.1 hq with hq | hq
        · exact hc q hq
        · rw [List.mem_singleton] at hq
          subst hq
          exact hpi

lemma foldl_pub_skip_inv (limit : Nat) (cs : Paper → Nat) (i : Option String) :
    ∀ (papers : List Paper) (st : PubState), pubSkipInv i st →
      pubSkipInv i (papers.foldl (publishStep limit cs) st)
  | [], _, h => h
  | p :: ps, st, h =>
    foldl_pub_skip_inv limit cs i ps (publishStep limit cs st p)
      (publishStep_skip_inv limit cs i st p h)

/-- C2: a record whose identity is already in the loaded ledger is never
sent to create_page during the publish call, and its identity is present in
the guid set the call persists. -/
theorem C2_ledger_skip (limit : Nat) (cs : Paper → Nat) (papers : List Paper)
    (ledger0 : Ledger) (p : Paper) (h : paperGuid p ∈ ledger0) :
    p ∉ (publishRun limit cs papers ledger0).calls
    ∧ paperGuid p ∈ (publishRun limit cs papers ledger0).guids := by
  have base : pubSkipInv (paperGuid p) (⟨0, ledger0, [], [], []⟩ : PubState) := by
    refine ⟨h, ?_⟩
    intro q hq
    simp at hq
  have hinv := foldl_pub_skip_inv limit cs (paperGuid p) papers _ base
  refine ⟨?_, hinv.1⟩
  intro hp
  exact hinv.2 p hp rfl

def c2paper : Paper := ⟨some "X", none, some "t"⟩

/-- C2 (witness): the dedup theorem applied to a concrete record whose
identity is already in the loaded ledger. -/
theorem C2_witness :
    (paperGuid c2paper ∈ ([some "X"] : Ledger))
    ∧ (c2paper ∉ (publishRun 30 (fun _ => 200) [c2paper] [some "X"]).calls
      ∧ paperGuid c2paper ∈ (publishRun 30 (fun _ => 200) [c2paper] [some "X"]).guids) :=
  ⟨by decide,
   C2_ledger_skip 30 (fun _ => 200) [c2paper] [some "X"] c2paper (by decide)⟩

lemma publish_foldl_frozen (limit : Nat) (cs : Paper → Nat) :
    ∀ (papers : List Paper) (st : PubState),
      (∀ p ∈ papers, paperGuid p ∈ st.guids) →
      papers.foldl (publishStep limit cs) st = st
  | [], _, _ => rfl
  | p :: ps, st, h => by
    have hstep : publishStep limit cs st p = st := by
      unfold publishStep
      by_cases h1 : limit ≤ st.created
      · rw [if_pos h1]
      · rw [if_neg h1, if_pos (h p (List.mem_cons_self p ps))]
    rw [List.foldl_cons, hstep]
    exact publish_foldl_frozen limit cs ps st fun q hq => h q (List.mem_cons_of_mem p hq)

/-- C10: the publish result's success flag is true exactly when at least one
page was created in the call, backfill's success flag is true exactly when
at least one page was updated or created, and a publish call in which every
record's identity is already in the loaded ledger returns success false,
created zero and an empty error list. -/
theorem C10_success_flag (limit : Nat) (cs us : Paper → Nat) (papers : List Paper)
    (pageTitles : List String) (ledger0 : Ledger) :
    ((publish_from_latest_rss limit cs papers ledger0).success = true ↔
      0 < (publish_from_latest_rss limit cs papers ledger0).created)
    ∧ ((backfill_from_latest_rss pageTitles us cs papers ledger0).success = true ↔
      0 < (backfill_from_latest_rss pageTitles us cs papers ledger0).updated +
          (backfill_from_latest_rss pageTitles us cs papers ledger0).created)
    ∧ ((∀ p ∈ papers, paperGuid p ∈ ledger0) →
      publish_from_latest_rss limit cs papers ledger0 = ⟨false, 0, []⟩) := by
  refine ⟨?_, ?_, ?_⟩
  · simp [publish_from_latest_rss]
  · simp [backfill_from_latest_rss]
  · intro hall
    have h := publish_foldl_frozen limit cs papers ⟨0, ledger0, [], [], []⟩ hall
    simp [publish_from_latest_rss, publishRun, h]

def c10paper : Paper := ⟨some "X", none, some "t"⟩

/-- C10 (witness): the success-flag theorem applied to a publish call whose
single record is already in the ledger. -/
theorem C10_witness :
    (∀ p ∈ [c10paper], paperGuid p ∈ ([some "X"] : Ledger))
    ∧ publish_from_latest_rss 30 (fun _ => 200) [c10paper] [some "X"] = ⟨false, 0, []⟩ :=
  ⟨by decide,
   (C10_success_flag 30 (fun _ => 200) (fun _ => 200) [c10paper] [] [some "X"]).2.2
     (by decide)⟩

/-- C4: against a fetch collaborator that returns an empty list without
raising on every attempt, the retry loop of run_pipeline never terminates:
for every amount of fuel it is still running, having issued one further
fetch call per iteration, instead of accepting the empty result after the
first attempt. -/
theorem C4_empty_fetch_loops : ∀ (fuel idx calls sleeps : Nat),
    fetchLoop (fun _ => FetchRes.ok []) 3 fuel 0 idx calls sleeps =
      LoopOut.fuelOut (calls + fuel) sleeps := by
  intro fuel
  induction fuel with
  | zero =>
    intro idx calls sleeps
    rfl
  | succ n ih =>
    intro idx calls sleeps
    rw [show fetchLoop (fun _ => FetchRes.ok []) 3 (n + 1) 0 idx calls sleeps =
          fetchLoop (fun _ => FetchRes.ok []) 3 n 0 (idx + 1) (calls + 1) sleeps from rfl,
        ih (idx + 1) (calls + 1) sleeps]
    have harith : calls + 1 + n = calls + (n + 1) := by omega
    rw [harith]

lemma assocLookup_set_self : ∀ (pm : PropMap) (n t : String),
    assocLookup (assocSet pm n t) n = some t
  | [], n, t => by simp [assocSet, assocLookup]
  | (k, v) :: rest, n, t => by
    by_cases hk : k = n
    · subst hk
      simp [assocSet, assocLookup]
    · simp only [assocSet, if_neg hk, assocLookup]
      exact assocLookup_set_self rest n t

lemma assocLookup_set_other : ∀ (pm : PropMap) (n t k : String), n ≠ k →
    assocLookup (assocSet pm n t) k = assocLookup pm k
  | [], n, t, k, h => by simp [assocSet, assocLookup, h]
  | (a, b) :: rest, n, t, k, h => by
    simp only [assocSet]
    by_cases ha : a = n
    · rw [if_pos ha]
      simp only [assocLookup]
      rw [if_neg h, if_neg fun hc => h (ha.symm.trans hc)]
    · rw [if_neg ha]
      simp only [assocLookup]
      by_cases hak : a = k
      · rw [if_pos hak, if_pos hak]
      · rw [if_neg hak, if_neg hak]
        exact assocLookup_set_other rest n t k h

lemma applyNeed_preserves : ∀ (need : List (String × String)) (pm : PropMap) (k : String),
    (∀ q ∈ need, q.1 ≠ k) → assocLookup (applyNeed pm need) k = assocLookup pm k
  | [], _, _, _ => rfl
  | a :: rest, pm, k, h => by
    have hunf : applyNeed pm (a :: rest) = applyNeed (assocSet pm a.1 a.2) rest := rfl
    rw [hunf,
        applyNeed_preserves rest _ k fun q hq => h q (List.mem_cons_of_mem a hq)]
    exact assocLookup_set_other pm a.1 a.2 k (h a (List.mem_cons_self a rest))

lemma applyNeed_mem : ∀ (need : List (String × String)) (pm : PropMap)
    (q : String × String), q ∈ need → (∀ r ∈ need, r.1 = q.1 → r = q) →
    assocLookup (applyNeed pm need) q.1 = some q.2
  | [], _, _, hmem, _ => absurd hmem (List.not_mem_nil _)
  | a :: rest, pm, q, hmem, huniq => by
    have hunf : applyNeed pm (a :: rest) = applyNeed (assocSet pm a.1 a.2) rest := rfl
    rw [hunf]
    by_cases hr : q ∈ rest
    · exact applyNeed_mem rest _ q hr fun r hrr h1 =>
        huniq r (List.mem_cons_of_mem a hrr) h1
    · have haq : a = q := by
        rcases List.mem_cons.mp hmem with h | h
        · exact h.symm
        · exact absurd h hr
      subst haq
      have hnone : ∀ r ∈ rest, r.1 ≠ a.1 := by
        intro r hrr hc
        have hra := huniq r (List.mem_cons_of_mem a hrr) hc
        subst hra
        exact hr hrr
      rw [applyNeed_preserves rest _ a.1 hnone]
      exact assocLookup_set_self pm a.1 a.2

/-- The six required well-known properties have pairwise distinct names. -/
lemma requiredProps_name_inj :
    ∀ q ∈ requiredProps, ∀ r ∈ requiredProps, q.1 = r.1 → q = r := by decide

lemma needOf_eq_nil (pm : PropMap)
    (h : ∀ q ∈ requiredProps, propTypeIs pm q.1 q.2 = true) : needOf pm = [] := by
  unfold needOf
  rw [List.filter_eq_nil_iff]
  intro q hq
  simp [h q hq]

lemma ensure_of_satisfied (ps : Nat) (rf pm : PropMap)
    (h : ∀ q ∈ requiredProps, propTypeIs pm q.1 q.2 = true) :
    ensure_database_properties ps rf pm = (pm, 0) := by
  simp [ensure_database_properties, needOf_eq_nil pm h]

lemma xml_ensure_of_satisfied (fields : List String) (ps : Nat) (rf pm : PropMap)
    (h : ∀ f ∈ fields, guess_notion_type f = "title"
          ∨ propTypeIs pm f (guess_notion_type f) = true) :
    ensure_properties_from_xml fields ps rf pm = (pm, 0) := by
  have hnil : xmlNeedOf pm fields = [] := by
    unfold xmlNeedOf
    rw [List.filter_eq_nil_iff]
    intro f hf
    rcases h f hf with h1 | h1
    · simp [h1]
    · simp [h1]
  simp [ensure_properties_from_xml, hnil]

/-- After a successful patch with no intervening remote change, every
required property exists with its required type. -/
lemma ensure_result_satisfied (pm : PropMap) :
    ∀ q ∈ requiredProps, propTypeIs (applyNeed pm (needOf pm)) q.1 q.2 = true := by
  intro q hq
  by_cases hp : propTypeIs pm q.1 q.2 = true
  · have hpres : assocLookup (applyNeed pm (needOf pm)) q.1 = assocLookup pm q.1 := by
      apply applyNeed_preserves
      intro r hr hc
      have hrq : r = q := requiredProps_name_inj r (List.mem_of_mem_filter hr) q hq hc
      subst hrq
      have hcond := List.of_mem_filter hr
      rw [hp] at hcond
      simp at hcond
    unfold propTypeIs at hp ⊢
    rw [hpres]
    exact hp
  · simp only [Bool.not_eq_true] at hp
    have hmem : q ∈ needOf pm := by
      apply List.mem_filter.mpr
      exact ⟨hq, by simp [hp]⟩
    have hlook : assocLookup (applyNeed pm (needOf pm)) q.1 = some q.2 := by
      apply applyNeed_mem _ _ _ hmem
      intro r hr h1
      exact requiredProps_name_inj r (List.mem_of_mem_filter hr) q hq h1
    unfold propTypeIs
    rw [hlook]
    simp

/-- C7: reconciling a property map that already holds every required
property at its required type issues zero patch requests and returns the
map unchanged (for both the fixed well-known set and the XML-derived
field set); consequently, a second reconciliation right after a successful
one, with the refreshed map reflecting the applied patch and no intervening
remote change, issues zero patch requests. -/
theorem C7_reconcile_idempotent (ps ps2 : Nat) (rf rf2 : PropMap)
    (fields : List String) (pm pm2 pmx : PropMap)
    (h1 : ∀ q ∈ requiredProps, propTypeIs pm q.1 q.2 = true)
    (h2 : ∀ f ∈ fields, guess_notion_type f = "title"
            ∨ propTypeIs pmx f (guess_notion_type f) = true) :
    ensure_database_properties ps rf pm = (pm, 0)
    ∧ ensure_properties_from_xml fields ps rf pmx = (pmx, 0)
    ∧ ensure_database_properties ps2 rf2
        (ensure_database_properties 200 (applyNeed pm2 (needOf pm2)) pm2).1 =
      ((ensure_database_properties 200 (applyNeed pm2 (needOf pm2)) pm2).1, 0) := by
  refine ⟨ensure_of_satisfied ps rf pm h1, xml_ensure_of_satisfied fields ps rf pmx h2, ?_⟩
  by_cases hne : needOf pm2 = []
  · have hfst : (ensure_database_properties 200 (applyNeed pm2 (needOf pm2)) pm2).1 = pm2 := by
      simp [ensure_database_properties, hne]
    rw [hfst]
    apply ensure_of_satisfied
    intro q hq
    have hne' : requiredProps.filter (fun q => !(propTypeIs pm2 q.1 q.2)) = [] := hne
    have hc := (List.filter_eq_nil_iff.mp hne') q hq
    simpa using hc
  · have hfst : (ensure_database_properties 200 (applyNeed pm2 (needOf pm2)) pm2).1 =
        applyNeed pm2 (needOf pm2) := by
      rcases hcase : needOf pm2 with _ | ⟨a, t⟩
      · exact absurd hcase hne
      · simp [ensure_database_properties, hcase]
    rw [hfst]
    exact ensure_of_satisfied ps2 rf2 _ (ensure_result_satisfied pm2)

/-- C7 (witness): the idempotence theorem applied to a concrete satisfied
map for the well-known set, a concrete satisfied map for an XML field set,
and a second reconciliation after patching the empty map. -/
theorem C7_witness :
    ((∀ q ∈ requiredProps, propTypeIs requiredProps q.1 q.2 = true)
      ∧ (∀ f ∈ ["link"], guess_notion_type f = "title"
            ∨ propTypeIs [("link", "url")] f (guess_notion_type f) = true))
    ∧ (ensure_database_properties 200 [] requiredProps = (requiredProps, 0)
      ∧ ensure_properties_from_xml ["link"] 200 [] [("link", "url")] = ([("link", "url")], 0)
      ∧ ensure_database_properties 200 []
          (ensure_database_properties 200 (applyNeed [] (needOf [])) []).1 =
        ((ensure_database_properties 200 (applyNeed [] (needOf [])) []).1, 0)) :=
  ⟨⟨by decide, by decide⟩,
   C7_reconcile_idempotent 200 200 [] [] ["link"] requiredProps [] [("link", "url")]
     (by decide) (by decide)⟩

end ArxivBot
